import Mathlib

/-!
Shallow embedding of the core of `telegram_support_bot.py` (sula8/telegram-support-bot):
the hidden-tag codec (`create_hidden_tag` / `extract_admin_msg_id`), the legacy id
extractor (`extract_ids_from_text`), the media-dispatching relay (`send_message`),
the admin-reply handler (`handle_admin_message`) and the router (`message_router`).

Python strings are modelled as `List Char`.  The regex patterns used by the code all
have the shape `<literal>(\d+)`; `re.findall(pat, text)[0]` for such a pattern returns
the digit run following the leftmost occurrence of the literal that is immediately
followed by at least one digit.  `scanTag` below models exactly that search.
-/

/-- Decimal digit to its character, as Python's `str` produces it. -/
def digitChar (d : Nat) : Char :=
  match d with
  | 0 => '0' | 1 => '1' | 2 => '2' | 3 => '3' | 4 => '4'
  | 5 => '5' | 6 => '6' | 7 => '7' | 8 => '8' | _ => '9'

/-- Numeric value of a digit character (what Python's `int` does per character). -/
def digitVal (c : Char) : Nat := c.toNat - 48

/-- Fuel-indexed producer of the decimal representation, most significant digit first. -/
def natReprAux : Nat → Nat → List Char
  | 0, _ => []
  | fuel + 1, n =>
    if n < 10 then [digitChar n]
    else natReprAux fuel (n / 10) ++ [digitChar (n % 10)]

/-- Decimal representation of a natural number, as Python's `str` renders it. -/
def natRepr (n : Nat) : List Char := natReprAux (n + 1) n

/-- Decimal representation of an integer, as Python's `str` renders it. -/
def intRepr (i : Int) : List Char :=
  if i < 0 then '-' :: natRepr i.natAbs else natRepr i.natAbs

/-- Value of a digit string, as Python's `int` parses a `(\d+)` capture. -/
def parseDigits (l : List Char) : Nat :=
  l.foldl (fun acc c => 10 * acc + digitVal c) 0

/-- Attempt to match the regex `<lit>(\d+)` at the very start of `s`:
the literal must be a prefix and at least one digit must follow; the capture is the
maximal digit run (the greedy `\d+`). -/
def tagMatchAt (lit s : List Char) : Option Nat :=
  if lit.isPrefixOf s then
    let ds := (s.drop lit.length).takeWhile Char.isDigit
    if ds.isEmpty then none else some (parseDigits ds)
  else none

/-- Leftmost match of `<lit>(\d+)` in the text: the first capture that
`re.findall(lit + r"(\d+)", text)` would return, `none` when `findall` is empty. -/
def scanTag (lit : List Char) : List Char → Option Nat
  | [] => none
  | c :: rest =>
    match tagMatchAt lit (c :: rest) with
    | some n => some n
    | none => scanTag lit rest

/-- `extract_ids_from_text` (lines 47-80): two independent cascades, canonical
pattern first, historical confirmation-format pattern as fallback. -/
def extract_ids_from_text (text : List Char) : Option Nat × Option Nat :=
  let user_id : Option Nat :=
    match scanTag "#ID".data text with
    | some u => some u
    | none => scanTag "Message sent to user #ID".data text
  let message_id : Option Nat :=
    match scanTag "#MSG".data text with
    | some m => some m
    | none => scanTag "message #".data text
  (user_id, message_id)

/-- `create_hidden_tag` (lines 82-84): the f-string `"\n\n#admsg{admin_msg_id}"`. -/
def create_hidden_tag (admin_msg_id : Int) : List Char :=
  '\n' :: '\n' :: ("#admsg".data ++ intRepr admin_msg_id)

/-- `extract_admin_msg_id` (lines 86-94): first `#admsg(\d+)` capture, else `None`. -/
def extract_admin_msg_id (text : List Char) : Option Nat :=
  scanTag "#admsg".data text

/-- Reference to a replied-to message: id plus its resolved text/caption. -/
structure ReplyRef where
  message_id : Nat
  text : Option (List Char)
  caption : Option (List Char)
  deriving DecidableEq

/-- The fields of a `telegram.Message` the core reads.  The five media fields model
truthiness of `message.photo` / `.video` / `.document` / `.voice` / `.audio`. -/
structure Msg where
  message_id : Nat
  text : Option (List Char)
  caption : Option (List Char)
  photo : Bool
  video : Bool
  document : Bool
  voice : Bool
  audio : Bool
  reply_to_message : Option ReplyRef
  deriving DecidableEq

/-- The platform send primitive that `send_message` selects. -/
inductive MediaKind where
  | photo | video | document | voice | audio | plain
  deriving DecidableEq

/-- Chat a call is addressed to: the configured `ADMIN_CHAT_ID`, or an end-user id. -/
inductive ChatRef where
  | admin
  | user (id : Nat)
  deriving DecidableEq

/-- The observable outbound platform call that one `send_message` invocation makes. -/
structure SendCall where
  chat_id : ChatRef
  kind : MediaKind
  content : List Char
  reply_to_message_id : Option Nat
  with_keyboard : Bool
  deriving DecidableEq

/-- Media priority of the `if/elif` chain in `send_message` (photo first, plain last). -/
def media_of (message : Msg) : MediaKind :=
  if message.photo then MediaKind.photo
  else if message.video then MediaKind.video
  else if message.document then MediaKind.document
  else if message.voice then MediaKind.voice
  else if message.audio then MediaKind.audio
  else MediaKind.plain

/-- `send_message` (lines 104-186): per-media branch computing the caption/text
(`text if text is not None else (message.caption or "")`, the tag appended when
`admin_msg_id is not None`) and issuing the corresponding platform call. -/
def send_message (chat_id : ChatRef) (message : Msg) (text : Option (List Char))
    (reply_to_message_id : Option Nat) (admin_msg_id : Option Int)
    (with_restart_button : Bool) : SendCall :=
  let admin_tag : List Char :=
    match admin_msg_id with
    | some a => create_hidden_tag a
    | none => []
  if message.photo then
    let caption := match text with | some t => t | none => message.caption.getD []
    let caption := if admin_msg_id.isSome then caption ++ admin_tag else caption
    ⟨chat_id, MediaKind.photo, caption, reply_to_message_id, with_restart_button⟩
  else if message.video then
    let caption := match text with | some t => t | none => message.caption.getD []
    let caption := if admin_msg_id.isSome then caption ++ admin_tag else caption
    ⟨chat_id, MediaKind.video, caption, reply_to_message_id, with_restart_button⟩
  else if message.document then
    let caption := match text with | some t => t | none => message.caption.getD []
    let caption := if admin_msg_id.isSome then caption ++ admin_tag else caption
    ⟨chat_id, MediaKind.document, caption, reply_to_message_id, with_restart_button⟩
  else if message.voice then
    let caption := match text with | some t => t | none => message.caption.getD []
    let caption := if admin_msg_id.isSome then caption ++ admin_tag else caption
    ⟨chat_id, MediaKind.voice, caption, reply_to_message_id, with_restart_button⟩
  else if message.audio then
    let caption := match text with | some t => t | none => message.caption.getD []
    let caption := if admin_msg_id.isSome then caption ++ admin_tag else caption
    ⟨chat_id, MediaKind.audio, caption, reply_to_message_id, with_restart_button⟩
  else
    let message_text := match text with | some t => t | none => message.text.getD []
    let message_text :=
      if admin_msg_id.isSome then message_text ++ admin_tag else message_text
    ⟨chat_id, MediaKind.plain, message_text, reply_to_message_id, with_restart_button⟩

/-- Python's `a or b` on two optional strings (an empty string is falsy). -/
def pyOrText (a b : Option (List Char)) : Option (List Char) :=
  match a with
  | some s => if s.isEmpty then b else some s
  | none => b

/-- `message.reply_to_message.text or message.reply_to_message.caption or ""`. -/
def reply_text (reply : ReplyRef) : List Char :=
  (pyOrText reply.text reply.caption).getD []

/-- The confirmation f-string of line 326 (the source file stores the check-mark
emoji double-encoded as the three characters U+00E2 U+0153 U+2026). -/
def confirmation_text (user_id admin_msg_id : Nat) : List Char :=
  "âœ… Message sent to user #ID".data ++ natRepr user_id
    ++ " (message #".data ++ natRepr admin_msg_id ++ ")".data

/-- The warning string of line 305 (leading warning-sign emoji double-encoded as
U+00E2 U+0161 U+00A0 U+00EF U+00B8). -/
def warning_text : List Char :=
  "âš ï¸ Could not find the user ID in the message. Make sure you\x27re replying to a forwarded user message.".data

/-- The Start/Restart button sentinel of lines 211/349 (emoji double-encoded as
U+00F0 U+0178 U+201D U+201E). -/
def restart_sentinel : List Char := "ðŸ”„ Start/Restart".data

/-- One outbound platform call made while handling an event. -/
inductive Eff where
  | chat_action (chat : ChatRef)
  | relay (call : SendCall)
  | send_text (chat : ChatRef) (text : List Char) (reply_to_message_id : Option Nat)
  deriving DecidableEq

/-- `handle_admin_message` (lines 284-338), as the sequence of outbound calls it
makes on its non-exceptional paths.  The guard is Python's `if not user_id:`, which
fires when the extracted id is `None` and also when it is the (falsy) integer `0`. -/
def handle_admin_message (message : Msg) (reply : ReplyRef) : List Eff :=
  let admin_msg_id := message.message_id
  let ids := extract_ids_from_text (reply_text reply)
  match ids.1 with
  | none => [Eff.send_text ChatRef.admin warning_text none]
  | some uid =>
    if uid = 0 then [Eff.send_text ChatRef.admin warning_text none]
    else
      [Eff.chat_action (ChatRef.user uid),
       Eff.relay (send_message (ChatRef.user uid) message none ids.2
         (some (admin_msg_id : Int)) true),
       Eff.send_text ChatRef.admin (confirmation_text uid admin_msg_id)
         (some admin_msg_id)]

/-- Outcome of the routing decision in `message_router`. -/
inductive RouteAction where
  | restart | admin_path | user_path | ignore
  deriving DecidableEq

/-- `message_router` (lines 340-365): the sentinel short-circuit, then
`if str(chat_id) == ADMIN_CHAT_ID and message.reply_to_message`, then
`elif str(chat_id) != ADMIN_CHAT_ID`; falling through does nothing. -/
def message_router (chat_id : Int) (admin_chat_id : List Char)
    (message_text : Option (List Char)) (is_reply : Bool) : RouteAction :=
  if message_text = some restart_sentinel then RouteAction.restart
  else if intRepr chat_id = admin_chat_id ∧ is_reply = true then RouteAction.admin_path
  else if ¬ intRepr chat_id = admin_chat_id then RouteAction.user_path
  else RouteAction.ignore

/-! Lemmas about the decimal representation. -/

theorem digitChar_isDigit {d : Nat} (h : d < 10) : (digitChar d).isDigit = true := by
  interval_cases d <;> decide

theorem digitVal_digitChar {d : Nat} (h : d < 10) : digitVal (digitChar d) = d := by
  interval_cases d <;> decide

theorem natReprAux_all_digits (fuel n : Nat) :
    ∀ c ∈ natReprAux fuel n, c.isDigit = true := by
  induction fuel generalizing n with
  | zero => intro c hc; simp [natReprAux] at hc
  | succ fuel ih =>
    intro c hc
    rw [natReprAux] at hc
    by_cases h : n < 10
    · rw [if_pos h] at hc
      simp at hc
      subst hc
      exact digitChar_isDigit h
    · rw [if_neg h] at hc
      rcases List.mem_append.mp hc with h1 | h1
      · exact ih _ c h1
      · simp at h1
        subst h1
        exact digitChar_isDigit (Nat.mod_lt _ (by norm_num))

theorem natRepr_all_digits (n : Nat) : ∀ c ∈ natRepr n, c.isDigit = true :=
  natReprAux_all_digits (n + 1) n

theorem natReprAux_ne_nil {fuel n : Nat} (h : n < fuel) : natReprAux fuel n ≠ [] := by
  cases fuel with
  | zero => omega
  | succ fuel =>
    rw [natReprAux]
    by_cases h10 : n < 10
    · rw [if_pos h10]; simp
    · rw [if_neg h10]; simp

theorem natRepr_ne_nil (n : Nat) : natRepr n ≠ [] :=
  natReprAux_ne_nil (Nat.lt_succ_self n)

theorem parseDigits_append_singleton (l : List Char) (c : Char) :
    parseDigits (l ++ [c]) = 10 * parseDigits l + digitVal c := by
  simp [parseDigits, List.foldl_append]

theorem parseDigits_natReprAux {fuel n : Nat} (h : n < fuel) :
    parseDigits (natReprAux fuel n) = n := by
  induction fuel generalizing n with
  | zero => omega
  | succ fuel ih =>
    rw [natReprAux]
    by_cases h10 : n < 10
    · rw [if_pos h10]
      simp [parseDigits, digitVal_digitChar h10]
    · rw [if_neg h10]
      rw [parseDigits_append_singleton, ih (by omega),
        digitVal_digitChar (Nat.mod_lt _ (by norm_num))]
      omega

theorem parseDigits_natRepr (n : Nat) : parseDigits (natRepr n) = n :=
  parseDigits_natReprAux (Nat.lt_succ_self n)

/-! Lemmas about `takeWhile`. -/

theorem takeWhile_cons_neg {p : Char → Bool} {c : Char} (l : List Char)
    (h : p c = false) : (c :: l).takeWhile p = [] := by
  simp [List.takeWhile_cons, h]

theorem takeWhile_all_append {p : Char → Bool} {l s : List Char}
    (h : ∀ c ∈ l, p c = true) : (l ++ s).takeWhile p = l ++ s.takeWhile p := by
  induction l with
  | nil => rfl
  | cons c l ih =>
    have hc := h c (List.mem_cons_self c l)
    simp [List.takeWhile_cons, hc, ih fun x hx => h x (List.mem_cons_of_mem c hx)]

theorem takeWhile_all {p : Char → Bool} {l : List Char}
    (h : ∀ c ∈ l, p c = true) : l.takeWhile p = l := by
  have := takeWhile_all_append (s := []) h
  simpa using this

/-! Step and inversion lemmas for `scanTag`. -/

theorem isPrefixOf_self_append (l t : List Char) : l.isPrefixOf (l ++ t) = true := by
  induction l with
  | nil => cases t <;> rfl
  | cons c l ih => simp [List.isPrefixOf, ih]

theorem tagMatchAt_self_append (lit t : List Char) :
    tagMatchAt lit (lit ++ t) =
      if (t.takeWhile Char.isDigit).isEmpty then none
      else some (parseDigits (t.takeWhile Char.isDigit)) := by
  unfold tagMatchAt
  rw [isPrefixOf_self_append]
  simp [List.drop_left]

theorem scanTag_cons_none {lit : List Char} {c : Char} {rest : List Char}
    (h : tagMatchAt lit (c :: rest) = none) :
    scanTag lit (c :: rest) = scanTag lit rest := by
  simp [scanTag, h]

theorem scanTag_cons_some {lit : List Char} {c : Char} {rest : List Char} {n : Nat}
    (h : tagMatchAt lit (c :: rest) = some n) :
    scanTag lit (c :: rest) = some n := by
  simp [scanTag, h]

theorem tagMatchAt_not_prefix {lit s : List Char} (h : lit.isPrefixOf s = false) :
    tagMatchAt lit s = none := by
  simp [tagMatchAt, h]

theorem tagMatchAt_head_ne {a c : Char} {lit s : List Char} (h : ¬ a = c) :
    tagMatchAt (a :: lit) (c :: s) = none := by
  apply tagMatchAt_not_prefix
  simp [List.isPrefixOf, h]

theorem tagMatchAt_second_ne {a b c d : Char} {lit rest : List Char} (h : ¬ b = d) :
    tagMatchAt (a :: b :: lit) (c :: d :: rest) = none := by
  apply tagMatchAt_not_prefix
  simp [List.isPrefixOf, h]

theorem scanTag_cons_head_ne {a c : Char} {lit s : List Char} (h : ¬ a = c) :
    scanTag (a :: lit) (c :: s) = scanTag (a :: lit) s :=
  scanTag_cons_none (tagMatchAt_head_ne h)

theorem scanTag_append_skip {a : Char} {lit : List Char} {pre : List Char}
    (s : List Char) (h : ∀ c ∈ pre, ¬ c = a) :
    scanTag (a :: lit) (pre ++ s) = scanTag (a :: lit) s := by
  induction pre with
  | nil => rfl
  | cons c pre ih =>
    rw [List.cons_append,
      scanTag_cons_head_ne fun he => h c (List.mem_cons_self c pre) he.symm]
    exact ih fun x hx => h x (List.mem_cons_of_mem c hx)

theorem scanTag_here {a : Char} {lit t : List Char}
    (h : (t.takeWhile Char.isDigit).isEmpty = false) :
    scanTag (a :: lit) ((a :: lit) ++ t) =
      some (parseDigits (t.takeWhile Char.isDigit)) := by
  rw [List.cons_append]
  apply scanTag_cons_some
  rw [← List.cons_append, tagMatchAt_self_append, h]
  simp

theorem scanTag_here_none {a : Char} {lit t : List Char}
    (h : (t.takeWhile Char.isDigit).isEmpty = true) :
    scanTag (a :: lit) ((a :: lit) ++ t) = scanTag (a :: lit) (lit ++ t) := by
  rw [List.cons_append]
  apply scanTag_cons_none
  rw [← List.cons_append, tagMatchAt_self_append, h]
  simp

theorem scanTag_eq_some {lit s : List Char} {n : Nat} (h : scanTag lit s = some n) :
    ∃ pre post, s = pre ++ (lit ++ post) ∧
      (post.takeWhile Char.isDigit).isEmpty = false ∧
      n = parseDigits (post.takeWhile Char.isDigit) := by
  induction s with
  | nil => simp [scanTag] at h
  | cons c rest ih =>
    rcases hm : tagMatchAt lit (c :: rest) with _ | m
    · rw [scanTag_cons_none hm] at h
      obtain ⟨pre, post, h1, h2, h3⟩ := ih h
      exact ⟨c :: pre, post, by rw [List.cons_append, h1], h2, h3⟩
    · rw [scanTag_cons_some hm] at h
      unfold tagMatchAt at hm
      by_cases hp : lit.isPrefixOf (c :: rest)
      · rw [if_pos hp] at hm
        obtain ⟨t, ht⟩ := (List.isPrefixOf_iff_prefix.mp hp)
        by_cases hds : (((c :: rest).drop lit.length).takeWhile Char.isDigit).isEmpty
        · simp [hds] at hm
        · rw [if_neg hds] at hm
          have hdrop : (c :: rest).drop lit.length = t := by
            rw [← ht, List.drop_left]
          refine ⟨[], t, by simp [ht.symm], ?_, ?_⟩
          · rw [← hdrop]
            simpa using hds
          · have h1 : m = n := by injection h
            have h2 :
                parseDigits (((c :: rest).drop lit.length).takeWhile Char.isDigit) = m := by
              injection hm
            rw [← hdrop, ← h1]
            exact h2.symm
      · simp [hp] at hm

theorem scanTag_isSome_of_occurrence {a : Char} {lit : List Char}
    {pre post : List Char}
    (hd : (post.takeWhile Char.isDigit).isEmpty = false) :
    (scanTag (a :: lit) (pre ++ ((a :: lit) ++ post))).isSome = true := by
  induction pre with
  | nil =>
    rw [List.nil_append, scanTag_here hd]
    rfl
  | cons c pre ih =>
    rw [List.cons_append]
    rcases hm : tagMatchAt (a :: lit) (c :: (pre ++ ((a :: lit) ++ post))) with _ | m
    · rw [scanTag_cons_none hm]
      exact ih
    · rw [scanTag_cons_some hm]
      rfl

theorem scanTag_longer_lit_none {w : List Char} {a : Char} {lit s : List Char}
    (h : scanTag (a :: lit) s = none) : scanTag (w ++ (a :: lit)) s = none := by
  rcases hn : scanTag (w ++ (a :: lit)) s with _ | n
  · rfl
  · obtain ⟨pre, post, h1, h2, _⟩ := scanTag_eq_some hn
    have hs : s = (pre ++ w) ++ ((a :: lit) ++ post) := by
      rw [h1]
      simp [List.append_assoc]
    have : (scanTag (a :: lit) s).isSome = true := by
      rw [hs]
      exact scanTag_isSome_of_occurrence h2
    rw [h] at this
    cases this

theorem isEmpty_false_of_ne_nil {l : List Char} (h : l ≠ []) : l.isEmpty = false := by
  cases l with
  | nil => exact absurd rfl h
  | cons c l => rfl

theorem digit_ne {c a : Char} (hc : c.isDigit = true) (ha : a.isDigit = false) :
    ¬ c = a := by
  intro he
  subst he
  rw [hc] at ha
  exact Bool.noConfusion ha

theorem scanTag_none_of_all_ne {a : Char} {lit l : List Char}
    (h : ∀ c ∈ l, ¬ c = a) : scanTag (a :: lit) l = none := by
  rw [← List.append_nil l, scanTag_append_skip _ h]
  rfl

theorem extract_fst_eq (text : List Char) :
    (extract_ids_from_text text).1 =
      match scanTag "#ID".data text with
      | some u => some u
      | none => scanTag "Message sent to user #ID".data text := rfl

theorem extract_snd_eq (text : List Char) :
    (extract_ids_from_text text).2 =
      match scanTag "#MSG".data text with
      | some m => some m
      | none => scanTag "message #".data text := rfl

/-! The ten claims. -/

/-- C1: Tag codec round-trip.  For every non-negative integer `n`, decoding the
result of encoding `n` recovers `n`:
`extract_admin_msg_id (create_hidden_tag n) = some n`. -/
theorem tag_codec_roundtrip (n : Nat) :
    extract_admin_msg_id (create_hidden_tag (n : Int)) = some n := by
  have hneg : ¬ ((n : Int) < 0) := by omega
  have habs : ((n : Int)).natAbs = n := Int.natAbs_ofNat n
  unfold extract_admin_msg_id create_hidden_tag intRepr
  rw [if_neg hneg, habs,
    show ("#admsg".data : List Char) = '#' :: "admsg".data from rfl,
    scanTag_cons_head_ne (by decide), scanTag_cons_head_ne (by decide)]
  have htw : (natRepr n).takeWhile Char.isDigit = natRepr n :=
    takeWhile_all (natRepr_all_digits n)
  rw [scanTag_here (by rw [htw]; exact isEmpty_false_of_ne_nil (natRepr_ne_nil n)),
    htw, parseDigits_natRepr]

/-- C8 counterexample: `create_hidden_tag` performs no validation at all.  At the
negative input `-1` it does not fail; it returns the tag string `"\n\n#admsg-1"`. -/
theorem create_hidden_tag_accepts_negative :
    create_hidden_tag (-1) = '\n' :: '\n' :: "#admsg-1".data := by decide

/-- C8 amended: `create_hidden_tag` accepts any integer and always returns the
f-string `"\n\n#admsg" ++ str(argument)`; there is no fail-fast check.  For a
negative argument the produced tag is silently undecodable: `extract_admin_msg_id`
finds no `#admsg(\d+)` match in it and returns `none`. -/
theorem create_hidden_tag_negative_undecodable (i : Int) (h : i < 0) :
    create_hidden_tag i = '\n' :: '\n' :: ("#admsg".data ++ intRepr i) ∧
    extract_admin_msg_id (create_hidden_tag i) = none := by
  refine ⟨rfl, ?_⟩
  unfold extract_admin_msg_id create_hidden_tag intRepr
  rw [if_pos h,
    show ("#admsg".data : List Char) = '#' :: "admsg".data from rfl,
    scanTag_cons_head_ne (by decide), scanTag_cons_head_ne (by decide),
    scanTag_here_none (by rw [takeWhile_cons_neg _ (by decide)]; rfl),
    scanTag_append_skip _ (by decide),
    scanTag_cons_head_ne (by decide)]
  exact scanTag_none_of_all_ne fun c hc =>
    digit_ne (natRepr_all_digits _ c hc) (by decide)

theorem create_hidden_tag_negative_undecodable_witness :
    ((-1 : Int) < 0) ∧
    (create_hidden_tag (-1) = '\n' :: '\n' :: ("#admsg".data ++ intRepr (-1)) ∧
      extract_admin_msg_id (create_hidden_tag (-1)) = none) :=
  ⟨by decide, create_hidden_tag_negative_undecodable (-1) (by decide)⟩

/-- C10: the historical user-id fallback of `extract_ids_from_text` is
unreachable: the user-id component always equals the result of the canonical
`#ID(\d+)` search alone, because any text matching
`Message sent to user #ID(\d+)` also contains a `#ID(\d+)` match. -/
theorem user_id_fallback_unreachable (text : List Char) :
    (extract_ids_from_text text).1 = scanTag "#ID".data text := by
  rcases h : scanTag "#ID".data text with _ | u
  · have h2 : scanTag "Message sent to user #ID".data text = none := by
      rw [show ("Message sent to user #ID".data : List Char) =
        "Message sent to user ".data ++ ('#' :: "ID".data) from rfl]
      exact scanTag_longer_lit_none h
    simp [extract_ids_from_text, h, h2]
  · simp [extract_ids_from_text, h]

/-- C3: router decision.  The fixed restart sentinel short-circuits to the
welcome/start path regardless of chat identity; otherwise a non-operator chat
takes the user path, an operator-chat reply takes the admin path, and an
operator-chat non-reply is ignored.  `message_router` is a total function of
the event, so the action is defined and stable for every case. -/
theorem message_router_decision (chat_id : Int) (admin_chat_id : List Char)
    (message_text : Option (List Char)) (is_reply : Bool) :
    (message_text = some restart_sentinel →
      message_router chat_id admin_chat_id message_text is_reply =
        RouteAction.restart) ∧
    (¬ message_text = some restart_sentinel →
      message_router chat_id admin_chat_id message_text is_reply =
        (if intRepr chat_id = admin_chat_id then
          (if is_reply then RouteAction.admin_path else RouteAction.ignore)
         else RouteAction.user_path)) := by
  constructor
  · intro h
    simp [message_router, h]
  · intro h
    unfold message_router
    rw [if_neg h]
    by_cases hop : intRepr chat_id = admin_chat_id
    · cases is_reply
      · simp [hop]
      · simp [hop]
    · simp [hop]

theorem message_router_decision_witness :
    message_router 5 "5".data (some restart_sentinel) false = RouteAction.restart ∧
    message_router 5 "5".data (some "hi".data) true = RouteAction.admin_path ∧
    message_router 6 "5".data (some "hi".data) true = RouteAction.user_path ∧
    message_router 5 "5".data (some "hi".data) false = RouteAction.ignore :=
  ⟨(message_router_decision 5 "5".data (some restart_sentinel) false).1 rfl,
   by rw [(message_router_decision 5 "5".data (some "hi".data) true).2 (by decide)]
      decide,
   by rw [(message_router_decision 6 "5".data (some "hi".data) true).2 (by decide)]
      decide,
   by rw [(message_router_decision 5 "5".data (some "hi".data) false).2 (by decide)]
      decide⟩

/-- C6: admin-path correlation failure.  When the replied-to text yields no user
id, the handler's entire effect is one warning message to the operator channel:
nothing is dispatched to any end-user and handling stops there. -/
theorem admin_path_correlation_failure (message : Msg) (reply : ReplyRef)
    (h : (extract_ids_from_text (reply_text reply)).1 = none) :
    handle_admin_message message reply =
      [Eff.send_text ChatRef.admin warning_text none] := by
  simp [handle_admin_message, h]

theorem admin_path_correlation_failure_witness :
    (extract_ids_from_text (reply_text ⟨1, some "hello".data, none⟩)).1 = none ∧
    handle_admin_message
        ⟨9, some "hi".data, none, false, false, false, false, false, none⟩
        ⟨1, some "hello".data, none⟩ =
      [Eff.send_text ChatRef.admin warning_text none] :=
  ⟨by decide, admin_path_correlation_failure _ _ (by decide)⟩

/-- C9: zero is treated as absent on the admin path.  When extraction of the
replied-to text yields the user id `0` (e.g. from a `#ID0` tag), the handler's
`if not user_id:` guard fires on the falsy integer `0`, so the operator gets the
warning and nothing is relayed to any user. -/
theorem admin_path_zero_id_warns (message : Msg) (reply : ReplyRef)
    (h : (extract_ids_from_text (reply_text reply)).1 = some 0) :
    handle_admin_message message reply =
      [Eff.send_text ChatRef.admin warning_text none] := by
  simp [handle_admin_message, h]

theorem admin_path_zero_id_warns_witness :
    (extract_ids_from_text (reply_text ⟨1, some "#ID0 #MSG3".data, none⟩)).1 =
      some 0 ∧
    handle_admin_message
        ⟨9, some "hi".data, none, false, false, false, false, false, none⟩
        ⟨1, some "#ID0 #MSG3".data, none⟩ =
      [Eff.send_text ChatRef.admin warning_text none] :=
  ⟨by decide, admin_path_zero_id_warns _ _ (by decide)⟩

/-- C5: the operator-success confirmation is self-resolving.  For every user id
`u` and operator message id `a`, the confirmation line built on line 326 contains
the canonical `#ID<u>` form, and running `extract_ids_from_text` on it yields
exactly `(some u, some a)` — the canonical cascade finds `u` and the historical
`message #(\d+)` fallback finds `a` — so the confirmation text itself can serve
as a future reply target. -/
theorem confirmation_self_resolving (u a : Nat) :
    (∃ pre post, confirmation_text u a =
      pre ++ ("#ID".data ++ (natRepr u ++ post))) ∧
    extract_ids_from_text (confirmation_text u a) = (some u, some a) := by
  have hu_dig := natRepr_all_digits u
  have ha_dig := natRepr_all_digits a
  obtain ⟨a0, arest, ha_cons⟩ : ∃ c cs, natRepr a = c :: cs := by
    rcases hh : natRepr a with _ | ⟨c, cs⟩
    · exact absurd hh (natRepr_ne_nil a)
    · exact ⟨c, cs, rfl⟩
  have ha0_digit : a0.isDigit = true :=
    ha_dig a0 (by rw [ha_cons]; exact List.mem_cons_self _ _)
  have harest_dig : ∀ c ∈ arest, c.isDigit = true := fun c hc =>
    ha_dig c (by rw [ha_cons]; exact List.mem_cons_of_mem a0 hc)
  have hform : confirmation_text u a =
      "âœ… Message sent to user ".data ++
        (('#' :: "ID".data) ++ (natRepr u ++
          (" (message #".data ++ (natRepr a ++ ")".data)))) := by
    unfold confirmation_text
    rw [show ("âœ… Message sent to user #ID".data : List Char) =
      "âœ… Message sent to user ".data ++ ('#' :: "ID".data) from rfl]
    simp only [List.append_assoc]
  have htw : (natRepr u ++ (" (message #".data ++
      (natRepr a ++ ")".data))).takeWhile Char.isDigit = natRepr u := by
    rw [takeWhile_all_append hu_dig,
      show (" (message #".data : List Char) = ' ' :: "(message #".data from rfl,
      List.cons_append,
      takeWhile_cons_neg _ (show Char.isDigit ' ' = false by decide),
      List.append_nil]
  have huser : scanTag "#ID".data (confirmation_text u a) = some u := by
    rw [show ("#ID".data : List Char) = '#' :: "ID".data from rfl, hform,
      scanTag_append_skip _ (by decide),
      scanTag_here (by rw [htw]; exact isEmpty_false_of_ne_nil (natRepr_ne_nil u)),
      htw, parseDigits_natRepr]
  have hform3 : confirmation_text u a =
      "âœ… Message sent to user ".data ++
        ('#' :: 'I' :: 'D' :: (natRepr u ++
          (" (message ".data ++ ('#' :: (natRepr a ++ ")".data))))) := by
    rw [hform,
      show (" (message #".data : List Char) =
        " (message ".data ++ ('#' :: []) from rfl]
    simp only [List.append_assoc, List.cons_append, List.nil_append]
  have hmsg : scanTag "#MSG".data (confirmation_text u a) = none := by
    rw [show ("#MSG".data : List Char) = '#' :: 'M' :: 'S' :: 'G' :: [] from rfl,
      hform3,
      scanTag_append_skip _ (by decide),
      scanTag_cons_none (tagMatchAt_second_ne (by decide)),
      scanTag_cons_head_ne (by decide), scanTag_cons_head_ne (by decide),
      scanTag_append_skip _ (fun c hc => digit_ne (hu_dig c hc) (by decide)),
      scanTag_append_skip _ (by decide),
      ha_cons, List.cons_append,
      scanTag_cons_none (tagMatchAt_second_ne
        (Ne.symm (digit_ne ha0_digit (show Char.isDigit 'M' = false by decide)))),
      scanTag_cons_head_ne
        (Ne.symm (digit_ne ha0_digit (show Char.isDigit '#' = false by decide))),
      scanTag_append_skip _ (fun c hc => digit_ne (harest_dig c hc) (by decide)),
      show (")".data : List Char) = ')' :: [] from rfl,
      scanTag_cons_head_ne (by decide)]
    rfl
  have hform2 : confirmation_text u a =
      "âœ… Message sent to user #ID".data ++ (natRepr u ++
        (" (".data ++ ("message #".data ++ (natRepr a ++ ")".data)))) := by
    unfold confirmation_text
    rw [show (" (message #".data : List Char) =
      " (".data ++ "message #".data from rfl]
    simp only [List.append_assoc]
  have htw2 : (natRepr a ++ ")".data).takeWhile Char.isDigit = natRepr a := by
    rw [takeWhile_all_append ha_dig,
      show (")".data : List Char) = ')' :: [] from rfl,
      takeWhile_cons_neg _ (show Char.isDigit ')' = false by decide),
      List.append_nil]
  have hfb : scanTag "message #".data (confirmation_text u a) = some a := by
    rw [hform2,
      show ("message #".data : List Char) = 'm' :: "essage #".data from rfl,
      scanTag_append_skip _ (by decide),
      scanTag_append_skip _ (fun c hc => digit_ne (hu_dig c hc) (by decide)),
      scanTag_append_skip _ (by decide),
      scanTag_here (by rw [htw2]; exact isEmpty_false_of_ne_nil (natRepr_ne_nil a)),
      htw2, parseDigits_natRepr]
  refine ⟨⟨"âœ… Message sent to user ".data,
    " (message #".data ++ (natRepr a ++ ")".data), hform⟩, ?_⟩
  simp [extract_ids_from_text, huser, hmsg, hfb]

/-- C2 counterexample: cascade priority does NOT hold regardless of order.  The
text `"Message sent to user #ID5 and #ID7"` contains the historical confirmation
phrase with id 5 and a canonical `#ID7` tag with a different id 7, yet extraction
returns 5, not 7: the canonical regex `#ID(\d+)` already matches the `#ID5`
embedded inside the earlier historical phrase. -/
theorem cascade_order_counterexample :
    (extract_ids_from_text "Message sent to user #ID5 and #ID7".data).1 =
      some 5 ∧
    ¬ (extract_ids_from_text "Message sent to user #ID5 and #ID7".data).1 =
      some 7 := by
  constructor <;> decide

/-- C2 amended: cascade priority holds only when the canonical tag comes first.
If the canonical `#ID<N>` occurrence precedes the historical confirmation phrase
(and no other `#` occurs before it), extraction returns the canonical id `N`
whatever follows; when the historical phrase appears first, its embedded id wins
instead, because the canonical pattern also matches the `#ID<M>` inside the
phrase. -/
theorem canonical_tag_first_wins (N M : Nat) (pre post : List Char)
    (h : ∀ c ∈ pre, ¬ c = '#') :
    (extract_ids_from_text (pre ++ ("#ID".data ++ (natRepr N ++
      (" Message sent to user #ID".data ++ (natRepr M ++ post)))))).1 = some N := by
  have htw : ((natRepr N ++ (" Message sent to user #ID".data ++
      (natRepr M ++ post)))).takeWhile Char.isDigit = natRepr N := by
    rw [takeWhile_all_append (natRepr_all_digits N),
      show (" Message sent to user #ID".data : List Char) =
        ' ' :: "Message sent to user #ID".data from rfl,
      List.cons_append,
      takeWhile_cons_neg _ (show Char.isDigit ' ' = false by decide),
      List.append_nil]
  have hscan : scanTag "#ID".data (pre ++ ("#ID".data ++ (natRepr N ++
      (" Message sent to user #ID".data ++ (natRepr M ++ post))))) = some N := by
    rw [show ("#ID".data : List Char) = '#' :: "ID".data from rfl,
      scanTag_append_skip _ h,
      scanTag_here (by rw [htw]; exact isEmpty_false_of_ne_nil (natRepr_ne_nil N)),
      htw, parseDigits_natRepr]
  rw [extract_fst_eq, hscan]

theorem canonical_tag_first_wins_witness :
    (extract_ids_from_text ("xy".data ++ ("#ID".data ++ (natRepr 7 ++
      (" Message sent to user #ID".data ++ (natRepr 5 ++ [])))))).1 = some 7 :=
  canonical_tag_first_wins 7 5 "xy".data [] (by decide)

/-- C4: `extract_ids_from_text` is total (a Lean function, modelling that the
Python function raises on no input), every present component is a genuinely
matched value (the digits following an occurrence of the pattern literal — never
a default zero or a negative), and the two cascades are independent: all four
present/absent combinations are realised. -/
theorem extract_ids_shape_and_independence :
    (∀ text n, (extract_ids_from_text text).1 = some n →
      ∃ pre post, text = pre ++ ("#ID".data ++ post) ∧
        (post.takeWhile Char.isDigit).isEmpty = false ∧
        n = parseDigits (post.takeWhile Char.isDigit)) ∧
    (∀ text n, (extract_ids_from_text text).2 = some n →
      (∃ pre post, text = pre ++ ("#MSG".data ++ post) ∧
        (post.takeWhile Char.isDigit).isEmpty = false ∧
        n = parseDigits (post.takeWhile Char.isDigit)) ∨
      (∃ pre post, text = pre ++ ("message #".data ++ post) ∧
        (post.takeWhile Char.isDigit).isEmpty = false ∧
        n = parseDigits (post.takeWhile Char.isDigit))) ∧
    extract_ids_from_text "#ID3".data = (some 3, none) ∧
    extract_ids_from_text "#MSG4".data = (none, some 4) ∧
    extract_ids_from_text "#ID3 #MSG4".data = (some 3, some 4) ∧
    extract_ids_from_text "no ids in this text".data = (none, none) := by
  refine ⟨?_, ?_, by decide, by decide, by decide, by decide⟩
  · intro text n h
    rcases hc : scanTag "#ID".data text with _ | u
    · have hf : scanTag "Message sent to user #ID".data text = some n := by
        simpa [extract_ids_from_text, hc] using h
      obtain ⟨pre, post, h1, h2, h3⟩ := scanTag_eq_some hf
      refine ⟨pre ++ "Message sent to user ".data, post, ?_, h2, h3⟩
      rw [h1, show ("Message sent to user #ID".data : List Char) =
        "Message sent to user ".data ++ "#ID".data from rfl]
      simp only [List.append_assoc]
    · have hu : u = n := by simpa [extract_ids_from_text, hc] using h
      obtain ⟨pre, post, h1, h2, h3⟩ := scanTag_eq_some hc
      exact ⟨pre, post, h1, h2, hu ▸ h3⟩
  · intro text n h
    rcases hc : scanTag "#MSG".data text with _ | m
    · right
      have hf : scanTag "message #".data text = some n := by
        simpa [extract_ids_from_text, hc] using h
      exact scanTag_eq_some hf
    · left
      have hm : m = n := by simpa [extract_ids_from_text, hc] using h
      obtain ⟨pre, post, h1, h2, h3⟩ := scanTag_eq_some hc
      exact ⟨pre, post, h1, h2, hm ▸ h3⟩

theorem extract_ids_shape_witness :
    ∃ pre post, "#ID3".data = pre ++ ("#ID".data ++ post) ∧
      (post.takeWhile Char.isDigit).isEmpty = false ∧
      3 = parseDigits (post.takeWhile Char.isDigit) :=
  extract_ids_shape_and_independence.1 "#ID3".data 3 (by decide)

/-- C7: relay dispatch content.  For every `send_message` call, whatever media
branch is taken, the outbound caption (media) or text (plain) is the supplied
override if one is given, else the message's original caption (media) or text
(plain), empty if absent — with the tag `"\n\n#admsg<N>"` appended exactly when
an admin message id is supplied, and no other change to the visible content. -/
theorem send_message_content_spec (chat_id : ChatRef) (message : Msg)
    (text : Option (List Char)) (reply_to_message_id : Option Nat)
    (admin_msg_id : Option Int) (with_restart_button : Bool) :
    (send_message chat_id message text reply_to_message_id admin_msg_id
        with_restart_button).content =
      (match text with
       | some t => t
       | none =>
         match media_of message with
         | MediaKind.plain => message.text.getD []
         | _ => message.caption.getD []) ++
      (match admin_msg_id with
       | some a => '\n' :: '\n' :: ("#admsg".data ++ intRepr a)
       | none => []) := by
  unfold send_message media_of create_hidden_tag
  rcases admin_msg_id with _ | a <;> rcases text with _ | t <;>
    by_cases h1 : message.photo <;> by_cases h2 : message.video <;>
    by_cases h3 : message.document <;> by_cases h4 : message.voice <;>
    by_cases h5 : message.audio <;>
    simp [h1, h2, h3, h4, h5]

